import Mathlib

/-!
Shallow embedding of `src/sf_mini_core/src/lib.rs` (crate `sf_mini_core`).

The crate exports a single C-ABI function:

```
pub extern "C" fn sf_core_full_version() -> *const c_char {
    static VERSION: &str = "0.0.1\0";
    VERSION.as_ptr() as *const c_char
}
```

We model process memory as a byte map `Nat → Nat`, with the static
`VERSION` placed at a fixed nonzero base address (Rust references, hence
`as_ptr` of a static `&str`, are never null).  The call is embedded as a
state-passing function returning the new state together with the pointer
value (the address of the static data).  A C-style consumer is modelled
by `readBytes` (read a window of memory) and `cStrScan` (take bytes up
to the first 0 terminator).
-/

namespace SfMiniCore

/-- The static string from lib.rs line 28: `static VERSION: &str = "0.0.1\0";`. -/
def VERSION : String := "0.0.1\x00"

/-- The byte sequence of `VERSION` (all characters are ASCII, so the code
points are the UTF-8 bytes). -/
def VERSION_bytes : List Nat := VERSION.toList.map Char.toNat

/-- A process state: a byte-addressed memory holding the static `VERSION`
data at a nonzero base address.  Rust places statics at valid nonzero
addresses, and `VERSION.as_ptr()` is exactly that address. -/
structure ProcessState where
  versionAddr : Nat
  versionAddr_pos : 0 < versionAddr
  mem : Nat → Nat
  mem_version : ∀ i, i < VERSION_bytes.length → mem (versionAddr + i) = VERSION_bytes.getD i 0

/-- Embedding of `sf_core_full_version` (lib.rs lines 26-30): the body is
the single expression `VERSION.as_ptr() as *const c_char`; it performs no
store and returns the address of the static data. -/
def sf_core_full_version (s : ProcessState) : ProcessState × Nat :=
  (s, s.versionAddr)

/-- Read `n` consecutive bytes of memory starting at address `p`. -/
def readBytes (s : ProcessState) (p n : Nat) : List Nat :=
  (List.range n).map (fun i => s.mem (p + i))

/-- C-style string scan: the bytes strictly before the first 0 terminator. -/
def cStrScan (bs : List Nat) : List Nat :=
  bs.takeWhile (fun b => b ≠ 0)

/-- Decode a list of ASCII byte values back to a string. -/
def asciiDecode (bs : List Nat) : String :=
  String.mk (bs.map Char.ofNat)

/-- Checks whether a character list is a nonempty run of decimal digits. -/
def isNumeric (cs : List Char) : Bool :=
  !cs.isEmpty && cs.all (fun c => c.isDigit)

/-- Split a character list at every dot. -/
def splitDots : List Char → List (List Char)
  | [] => [[]]
  | c :: cs =>
    let rest := splitDots cs
    if c = '.' then [] :: rest
    else
      match rest with
      | [] => [[c]]
      | g :: gs => (c :: g) :: gs

/-- MAJOR.MINOR.PATCH shape: exactly three dot-separated numeric components. -/
def isSemverMMP (v : String) : Bool :=
  match splitDots v.toList with
  | [a, b, c] => isNumeric a && isNumeric b && isNumeric c
  | _ => false

/-- Observable C-ABI outcome of a call: an ordinary return carrying a value,
or an error signal (which the straight-line body of lib.rs lines 27-29,
having no panic or abort path, never produces). -/
inductive CallOutcome (α : Type) where
  | normalReturn (value : α)
  | errorSignal (code : Nat)
deriving DecidableEq

/-- The C-ABI outcome of calling `sf_core_full_version`: the body is a
straight-line expression, so every call returns normally with the pointer. -/
def sf_core_full_version_outcome (s : ProcessState) : CallOutcome Nat :=
  .normalReturn (sf_core_full_version s).2

/-- Run a schedule of calls over shared process state: each entry of the
schedule is one thread performing the call; the state threads through the
steps and each step's returned pointer is recorded. -/
def runConcurrent (s : ProcessState) : List Nat → ProcessState × List Nat
  | [] => (s, [])
  | _ :: rest =>
    let r := sf_core_full_version s
    let rec' := runConcurrent r.1 rest
    (rec'.1, r.2 :: rec'.2)

/-- A canonical process state with the static data at address 1. -/
def initState : ProcessState where
  versionAddr := 1
  versionAddr_pos := Nat.one_pos
  mem := fun a => VERSION_bytes.getD (a - 1) 0
  mem_version := by
    intro i _
    show VERSION_bytes.getD (1 + i - 1) 0 = VERSION_bytes.getD i 0
    congr 1
    omega

/- Helper lemmas -/

theorem VERSION_bytes_eq : VERSION_bytes = [48, 46, 48, 46, 49, 0] := by
  decide

theorem readBytes_split (s : ProcessState) (p m n : Nat) :
    readBytes s p (m + n) = readBytes s p m ++ readBytes s (p + m) n := by
  unfold readBytes
  rw [List.range_add, List.map_append, List.map_map]
  congr 1
  apply List.map_congr_left
  intro i _
  simp [Function.comp]
  ring_nf

theorem readBytes_version (s : ProcessState) :
    readBytes s s.versionAddr 6 = VERSION_bytes := by
  apply List.ext_getElem
  · simp [readBytes, VERSION_bytes_eq]
  · intro i h1 h2
    simp only [readBytes, List.getElem_map, List.getElem_range]
    have hlen : i < VERSION_bytes.length := by
      simpa [VERSION_bytes_eq] using h2
    rw [s.mem_version i hlen]
    rw [List.getD_eq_getElem VERSION_bytes 0 hlen]

theorem cStrScan_version (s : ProcessState) (fuel : Nat) (h : 6 ≤ fuel) :
    cStrScan (readBytes s s.versionAddr fuel) = [48, 46, 48, 46, 49] := by
  obtain ⟨k, rfl⟩ : ∃ k, fuel = 6 + k := ⟨fuel - 6, by omega⟩
  rw [readBytes_split, readBytes_version, VERSION_bytes_eq]
  simp [cStrScan]

/- Claim theorems -/

/-- C1: every call to `sf_core_full_version` returns a pointer whose
pointed-to, null-terminated character sequence decodes to exactly the
literal string "0.0.1" (no matter how far a consumer is willing to scan). -/
theorem sf_core_full_version_literal (s : ProcessState) (fuel : Nat) (h : 6 ≤ fuel) :
    asciiDecode (cStrScan (readBytes s (sf_core_full_version s).2 fuel)) = "0.0.1" := by
  show asciiDecode (cStrScan (readBytes s s.versionAddr fuel)) = "0.0.1"
  rw [cStrScan_version s fuel h]
  decide

theorem sf_core_full_version_literal_witness :
    asciiDecode (cStrScan (readBytes initState (sf_core_full_version initState).2 10)) = "0.0.1" :=
  sf_core_full_version_literal initState 10 (by decide)

/-- C2: the pointer returned by every call to `sf_core_full_version` is
non-null (nonzero address). -/
theorem sf_core_full_version_nonnull (s : ProcessState) :
    (sf_core_full_version s).2 ≠ 0 :=
  Nat.pos_iff_ne_zero.mp s.versionAddr_pos

/-- C3: for every call, the string decoded from the returned pointer up to
the first null terminator is non-empty. -/
theorem sf_core_full_version_nonempty (s : ProcessState) (fuel : Nat) (h : 6 ≤ fuel) :
    cStrScan (readBytes s (sf_core_full_version s).2 fuel) ≠ [] := by
  show cStrScan (readBytes s s.versionAddr fuel) ≠ []
  rw [cStrScan_version s fuel h]
  decide

theorem sf_core_full_version_nonempty_witness :
    cStrScan (readBytes initState (sf_core_full_version initState).2 6) ≠ [] :=
  sf_core_full_version_nonempty initState 6 (by decide)

/-- C4: two successive calls within one process return equal pointers, and
the bytes reachable from the two pointers (up to and including the null
terminator, which sits inside the 6-byte static) are byte-for-byte
identical; the call is idempotent and referentially stable. -/
theorem sf_core_full_version_idempotent (s : ProcessState) :
    (sf_core_full_version (sf_core_full_version s).1).2 = (sf_core_full_version s).2 ∧
    readBytes (sf_core_full_version (sf_core_full_version s).1).1
        (sf_core_full_version (sf_core_full_version s).1).2 6 =
      readBytes s (sf_core_full_version s).2 6 :=
  ⟨rfl, rfl⟩

/-- C5: the byte sequence the returned pointer points to is terminated by a
null (0) sentinel byte: its final byte within the static data is 0. -/
theorem sf_core_full_version_null_terminated (s : ProcessState) :
    (readBytes s (sf_core_full_version s).2 6).getLast? = some 0 ∧
    0 ∈ readBytes s (sf_core_full_version s).2 6 := by
  show (readBytes s s.versionAddr 6).getLast? = some 0 ∧ 0 ∈ readBytes s s.versionAddr 6
  rw [readBytes_version, VERSION_bytes_eq]
  decide

/-- C6: the call is total and cannot fail: its C-ABI outcome is always a
normal return of a value, never an error signal. -/
theorem sf_core_full_version_total (s : ProcessState) :
    (∃ v, sf_core_full_version_outcome s = .normalReturn v) ∧
    ∀ c, sf_core_full_version_outcome s ≠ .errorSignal c :=
  ⟨⟨(sf_core_full_version s).2, rfl⟩, fun _ h => CallOutcome.noConfusion h⟩

/-- C7: the call has no observable side effect: the entire process state
(in particular every byte of memory) is returned unchanged. -/
theorem sf_core_full_version_no_side_effects (s : ProcessState) :
    (sf_core_full_version s).1 = s ∧
    ∀ a, (sf_core_full_version s).1.mem a = s.mem a :=
  ⟨rfl, fun _ => rfl⟩

/-- C8: the decoded string content follows MAJOR.MINOR.PATCH shape: three
nonempty numeric components separated by dots. -/
theorem sf_core_full_version_semver (s : ProcessState) (fuel : Nat) (h : 6 ≤ fuel) :
    isSemverMMP (asciiDecode (cStrScan (readBytes s (sf_core_full_version s).2 fuel))) = true := by
  show isSemverMMP (asciiDecode (cStrScan (readBytes s s.versionAddr fuel))) = true
  rw [cStrScan_version s fuel h]
  decide

theorem sf_core_full_version_semver_witness :
    isSemverMMP (asciiDecode (cStrScan (readBytes initState (sf_core_full_version initState).2 7))) = true :=
  sf_core_full_version_semver initState 7 (by decide)

/-- C9: any schedule of concurrent callers over the shared process state
leaves every byte of memory untouched at every step (so no write, hence no
data race, occurs), and every caller observes the literal value "0.0.1". -/
theorem sf_core_full_version_concurrent (s : ProcessState) (sched : List Nat)
    (fuel : Nat) (h : 6 ≤ fuel) :
    (runConcurrent s sched).1 = s ∧
    (∀ t, (runConcurrent s t).1 = s) ∧
    ∀ p ∈ (runConcurrent s sched).2,
      asciiDecode (cStrScan (readBytes s p fuel)) = "0.0.1" := by
  have hstate : ∀ t : List Nat, (runConcurrent s t).1 = s := by
    intro t
    induction t with
    | nil => rfl
    | cons x xs ih => simpa [runConcurrent, sf_core_full_version] using ih
  refine ⟨hstate sched, hstate, ?_⟩
  intro p hp
  have hmem : p = s.versionAddr := by
    induction sched with
    | nil => simp [runConcurrent] at hp
    | cons x xs ih =>
      simp only [runConcurrent, sf_core_full_version, List.mem_cons] at hp
      rcases hp with hp | hp
      · exact hp
      · exact ih hp
  subst hmem
  rw [cStrScan_version s fuel h]
  decide

theorem sf_core_full_version_concurrent_witness :
    (runConcurrent initState [0, 1, 2]).1 = initState ∧
    (∀ t, (runConcurrent initState t).1 = initState) ∧
    ∀ p ∈ (runConcurrent initState [0, 1, 2]).2,
      asciiDecode (cStrScan (readBytes initState p 6)) = "0.0.1" :=
  sf_core_full_version_concurrent initState [0, 1, 2] 6 (by decide)

/-- C10: the static byte sequence backing the returned pointer contains
exactly one 0 byte, which is its final byte; a C-style consumer reading up
to the first terminator therefore recovers all 5 bytes of "0.0.1" with
nothing truncated. -/
theorem sf_core_full_version_single_terminator (s : ProcessState) :
    readBytes s (sf_core_full_version s).2 VERSION_bytes.length = VERSION_bytes ∧
    VERSION_bytes.count 0 = 1 ∧
    VERSION_bytes.getLast? = some 0 ∧
    (cStrScan VERSION_bytes).length = 5 ∧
    asciiDecode (cStrScan VERSION_bytes) = "0.0.1" := by
  refine ⟨?_, by decide, by decide, by decide, by decide⟩
  show readBytes s s.versionAddr VERSION_bytes.length = VERSION_bytes
  have h6 : VERSION_bytes.length = 6 := by decide
  rw [h6, readBytes_version]

end SfMiniCore
